import Mathlib

/-!
The bhive measurement harness (`src/bhive/harness.c`).

A shallow embedding of the controller side of the harness (`measure`,
`move_child_stack`, `move_child_to_map_and_restart`) and of the subject-side code
injector (`insert_jump_to_test_start` and the copy loop of `measure`), x86-64 build.

Conventions.
* `unsigned long long` register values are `Nat`, arithmetic on them is taken
  modulo `2 ^ 64` where the source subtracts.
* Pointers into the subject are byte addresses in `Int`; `p--` on a `long *` is
  `p - 8`.  The subject's memory is a map from the address of a word to the word.
* System calls are answered by an explicit environment: every call whose result the
  source inspects has a field holding that result.
-/

namespace Bhive

/-! ## Constants -/

/-- Linux signal numbers used by the harness. -/
def SIGKILL : Int := 9

def SIGSEGV : Int := 11

def SIGSTOP : Int := 19

/-- Width of `long` on the two supported targets. -/
def sizeof_long : Nat := 8

/-- Value `errno` takes when a `PTRACE_PEEKDATA`/`PTRACE_POKEDATA` request fails (EIO). -/
def ptrace_errno : Nat := 5

/-- Page size of `sys/user.h` on x86-64. -/
def PAGE_SIZE : Nat := 4096

/-! ## Register/stack relocator -/

/-- Fields of `struct user_regs_struct` that the harness reads or writes. -/
structure user_regs_struct where
  rbp : Nat
  rsp : Nat
  rip : Nat
  rdi : Nat
deriving DecidableEq, Repr

/-- Answers of the trace interface for one stopped subject: the return values of the
register requests and, per address, whether a word read or write succeeds. -/
structure Ptrace where
  getregs_ret : Int
  setregs_ret : Int
  peek_ok : Int → Bool
  poke_ok : Int → Bool

/-- Subject memory together with the tracer's `errno`. A failing request sets `errno`. A
succeeding `PTRACE_PEEKDATA` stores 0 in it (the C library's `ptrace` does so for the
peek requests, whose result may itself be `-1`); a succeeding `PTRACE_POKEDATA` leaves it
as it is. -/
structure Tracee where
  mem : Int → Int
  errno : Nat

/-- The request `ptrace(PTRACE_PEEKDATA, child, p, NULL)`: the word at `p` with `errno`
cleared, or `-1` with `errno` set. -/
def peekdata (pt : Ptrace) (s : Tracee) (p : Int) : Int × Tracee :=
  if pt.peek_ok p then (s.mem p, { s with errno := 0 })
  else (-1, { s with errno := ptrace_errno })

/-- The request `ptrace(PTRACE_POKEDATA, child, p, word)`: stores the word, or sets `errno`. -/
def pokedata (pt : Ptrace) (s : Tracee) (p : Int) (word : Int) : Tracee :=
  if pt.poke_ok p then { s with mem := fun a => if a = p then word else s.mem a }
  else { s with errno := ptrace_errno }

/-- The function `read_child_regs`: the return value of the request and the snapshot it fills in. -/
def read_child_regs (pt : Ptrace) (child_regs : user_regs_struct)
    (regs : user_regs_struct) : Int × user_regs_struct :=
  if pt.getregs_ret = -1 then (pt.getregs_ret, regs) else (pt.getregs_ret, child_regs)

/-- The function `set_child_regs`: the return value of the request and the subject's registers after it. -/
def set_child_regs (pt : Ptrace) (child_regs : user_regs_struct)
    (regs : user_regs_struct) : Int × user_regs_struct :=
  if pt.setregs_ret = -1 then (pt.setregs_ret, child_regs) else (pt.setregs_ret, regs)

/-- The copy loop of `move_child_stack`:
`for (p = ori_bp, new_p = new_bp; p > ori_sp; p--, new_p--)`. -/
def copy_loop (pt : Ptrace) (ori_sp : Int) (p new_p : Int) (s : Tracee) : Tracee :=
  if ori_sp < p then
    let r := peekdata pt s p
    let s2 := pokedata pt r.2 new_p r.1
    let r3 := peekdata pt s2 new_p
    copy_loop pt ori_sp (p - 8) (new_p - 8) r3.2
  else s
termination_by (p - ori_sp).toNat
decreasing_by omega

/-- Lines printed by the sanity check of `move_child_stack`. -/
inductive BugMsg where
  | copy (ori_word new_word : Int)
  | shared (ori_word new_word_sh : Int)
deriving DecidableEq, Repr

/-- The sanity check of `move_child_stack`, from index `i` on:
`for (int i = 0; i < stack_size / sizeof(long); i++)`, the counter taken as a natural
number. `parent_mem` is the controller's own memory, in which `child_stack` is its mapping
of the stack page. -/
def sanity_check (pt : Ptrace) (ori_bp stack_base_addr : Int) (parent_mem : Int → Int)
    (child_stack : Int) (n : Nat) (i : Nat) (s : Tracee) : Tracee × List BugMsg :=
  if i < n then
    let ori_p := ori_bp - 8 * (i : Int)
    let new_p := stack_base_addr - 8 * (i : Int)
    let r1 := peekdata pt s ori_p
    let r2 := peekdata pt r1.2 new_p
    let new_word_sh := parent_mem (child_stack + (PAGE_SIZE / 2 : Nat) - 8 * (i : Int))
    let m1 := if r1.1 ≠ r2.1 then [BugMsg.copy r1.1 r2.1] else []
    let m2 := if r1.1 ≠ new_word_sh then [BugMsg.shared r1.1 new_word_sh] else []
    let rest := sanity_check pt ori_bp stack_base_addr parent_mem child_stack n (i + 1) r2.2
    (rest.1, m1 ++ m2 ++ rest.2)
  else (s, [])
termination_by n - i

/-- What `move_child_stack` leaves behind: its return value, the subject's memory and
registers, and the lines the sanity check printed. -/
structure StackMove where
  ret : Int
  mem : Int → Int
  regs : user_regs_struct
  log : List BugMsg

/-- The call `move_child_stack(child, stack_base_addr, child_stack)` for a subject whose registers
are `child_regs` and whose memory is `mem`. -/
def move_child_stack (pt : Ptrace) (child_regs : user_regs_struct) (mem : Int → Int)
    (parent_mem : Int → Int) (stack_base_addr : Nat) (child_stack : Int) : StackMove :=
  let rd := read_child_regs pt child_regs ⟨0, 0, 0, 0⟩
  if rd.1 = -1 then ⟨-1, mem, child_regs, []⟩
  else
    let regs := rd.2
    let ori_bp : Int := regs.rbp
    let ori_sp : Int := regs.rsp
    let stack_size : Nat := (regs.rbp + 2 ^ 64 - regs.rsp) % 2 ^ 64
    let new_bp : Int := stack_base_addr
    let s := copy_loop pt ori_sp ori_bp new_bp ⟨mem, 0⟩
    if s.errno ≠ 0 then ⟨-2, s.mem, child_regs, []⟩
    else
      let chk := sanity_check pt ori_bp stack_base_addr parent_mem child_stack
        (stack_size / sizeof_long) 0 s
      let regs1 := { regs with rbp := stack_base_addr }
      let regs2 := { regs1 with rsp := (regs1.rbp + 2 ^ 64 - stack_size) % 2 ^ 64 }
      let wr := set_child_regs pt child_regs regs2
      if wr.1 = -1 then ⟨-3, chk.1.mem, wr.2, chk.2⟩
      else ⟨0, chk.1.mem, wr.2, chk.2⟩


/-! ## Fault recovery redirect -/

/-- The call `move_child_to_map_and_restart(child, fault_addr)`: its return value and the subject's
registers afterwards. `map_and_restart` is the address of the recovery routine. -/
def move_child_to_map_and_restart (pt : Ptrace) (child_regs : user_regs_struct)
    (map_and_restart : Nat) (fault_addr : Nat) : Int × user_regs_struct :=
  let rd := read_child_regs pt child_regs ⟨0, 0, 0, 0⟩
  if rd.1 = -1 then (-1, child_regs)
  else
    let regs := { rd.2 with rip := map_and_restart, rdi := fault_addr }
    let wr := set_child_regs pt child_regs regs
    if wr.1 = -1 then (-1, wr.2) else (wr.1, wr.2)

/-! ## Process orchestrator -/

/-- Compile-time constants declared in `harness.h` and `runtest.h`; the model takes them as
parameters. -/
structure Consts where
  MAX_FAULTS : Nat
  STACK_PAGE_ADDR : Nat
  CYC_COUNT_OFFSET : Nat
  map_and_restart : Nat

/-- The test `WIFSTOPPED(status)` of `sys/wait.h`: the low byte of the status is `0x7f`. -/
def WIFSTOPPED (status : Nat) : Bool := status % 256 = 127

/-- The value `WSTOPSIG(status)` of `sys/wait.h`: the second byte of the status. -/
def WSTOPSIG (status : Nat) : Int := ((status / 256 % 256 : Nat) : Int)

/-- What the controller observes after one `PTRACE_CONT`: the return value of `wait`, the
signal number and address `PTRACE_GETSIGINFO` leaves in `sinfo`, the subject's registers and
the answers of the trace interface at that stop, and the controller's view of its own
memory (64-bit words), which holds the shared pages. -/
structure Stop where
  wait_ret : Int
  si_signo : Int
  si_addr : Nat
  regs : user_regs_struct
  pt : Ptrace
  parent_mem : Int → Nat

/-- Calls of `measure` that act on the subject or read the result, in program order. -/
inductive Event where
  | kill (pid : Int) (sig : Int)
  | ptrace_cont (pid : Int)
  | move_child_stack (pid : Int) (ret : Int)
  | move_child_to_map_and_restart (pid : Int) (fault_addr : Nat) (ret : Int)
  | getregs (pid : Int)
  | read_cyc_count (value : Nat)
deriving DecidableEq, Repr

/-- How the resume/intercept loop was left: `return -1` after a failed `wait`, `break`
after a stop that is not a memory fault, or the loop condition turning false. -/
inductive LoopExit where
  | wait_error
  | done
  | exhausted
deriving DecidableEq, Repr

/-- The resume/intercept loop of `measure` from iteration `i` on:
`for (int i = 0; i < MAX_FAULTS; i++)`. `stops i` is what the subject reports after the
resume of iteration `i`. The `kill` of the wait-error path is part of the loop's trace. -/
def intercept_loop (K : Consts) (child : Int) (child_aux : Int) (stops : Nat → Stop)
    (i : Nat) : List Event × LoopExit :=
  if i < K.MAX_FAULTS then
    let st := stops i
    if st.wait_ret = -1 then
      ([Event.ptrace_cont child, Event.kill child SIGKILL], LoopExit.wait_error)
    else if st.si_signo = SIGSEGV then
      let r := move_child_to_map_and_restart st.pt st.regs K.map_and_restart st.si_addr
      let rest := intercept_loop K child child_aux stops (i + 1)
      (Event.ptrace_cont child ::
        Event.move_child_to_map_and_restart child st.si_addr r.1 :: rest.1, rest.2)
    else
      ([Event.ptrace_cont child, Event.getregs child,
        Event.read_cyc_count (st.parent_mem (child_aux + (K.CYC_COUNT_OFFSET : Int)))],
        LoopExit.done)
  else ([], LoopExit.exhausted)
termination_by K.MAX_FAULTS - i

/-- Everything `measure` obtains from the operating system on the controller side. -/
structure MeasureEnv where
  shm_fd : Int
  fork_ret : Int
  child_mem : Int
  child_aux : Int
  child_stack : Int
  wait_ret : Int
  child_stat : Nat
  pt : Ptrace
  regs : user_regs_struct
  mem : Int → Int
  parent_mem : Int → Int
  stops : Nat → Stop

/-- Result of a call of `measure`: the value returned to the caller (`none` on the subject
side of the fork, which runs `runtest` instead of returning), the `measure_results_t`
object behind `res`, and the trace of events. -/
structure Outcome (R : Type) where
  ret : Option Int
  res : R
  trace : List Event

/-- Controller side of `measure(code_to_test, code_size, unroll_factor, res)`, for a run in
which every `wait` returns. -/
def measure {R : Type} (K : Consts) (env : MeasureEnv) (res : R) : Outcome R :=
  if env.shm_fd = -1 then ⟨some (-1), res, []⟩
  else
    let child := env.fork_ret
    if child = -1 then ⟨some (-1), res, [Event.kill child SIGKILL]⟩
    else if child ≠ 0 then
      if env.child_mem = -1 then ⟨some (-1), res, [Event.kill child SIGKILL]⟩
      else if env.child_aux = -1 then ⟨some (-1), res, [Event.kill child SIGKILL]⟩
      else if env.child_stack = -1 then ⟨some (-1), res, [Event.kill child SIGKILL]⟩
      else if env.wait_ret = -1 then ⟨some (-1), res, [Event.kill child SIGKILL]⟩
      else if ¬ WIFSTOPPED env.child_stat then ⟨some (-1), res, [Event.kill child SIGKILL]⟩
      else
        let mv := move_child_stack env.pt env.regs env.mem env.parent_mem
          (K.STACK_PAGE_ADDR + PAGE_SIZE / 2) env.child_stack
        if mv.ret ≠ 0 then
          ⟨some (-1), res, [Event.move_child_stack child mv.ret, Event.kill child SIGKILL]⟩
        else
          let lp := intercept_loop K child env.child_aux env.stops 0
          match lp.2 with
          | LoopExit.wait_error => ⟨some (-1), res, Event.move_child_stack child mv.ret :: lp.1⟩
          | _ =>
            ⟨some (-1), res,
              Event.move_child_stack child mv.ret :: (lp.1 ++ [Event.kill child SIGKILL])⟩
    else ⟨none, res, []⟩

/-- Number of `PTRACE_CONT` requests in a trace. -/
def count_cont (tr : List Event) : Nat :=
  tr.countP fun e => match e with
    | Event.ptrace_cont _ => true
    | _ => false

/-- The constant `SIZE_OF_REL_JUMP` on x86-64. -/
def SIZE_OF_REL_JUMP : Nat := 5

/-- The call `memcpy(dst, src, n)` on a byte map; `src j` is byte `j` of the source buffer, which
lies outside the region being written. -/
def memcpy (mem : Nat → Nat) (dst : Nat) (src : Nat → Nat) (n : Nat) : Nat → Nat :=
  fun a => if dst ≤ a ∧ a < dst + n then src (a - dst) else mem a

/-- The unrolling loop of `measure`, from iteration `i` on:
`for (int i = 0; i < unroll_factor; i++) { memcpy(block_ptr, code_to_test, code_size);
block_ptr += code_size; }`. The `int` counter is compared after conversion to `unsigned`,
so the body runs `unroll_factor` times. Returns the final `block_ptr` and the memory. -/
def unroll_loop (code_to_test : Nat → Nat) (code_size unroll_factor : Nat) (i : Nat)
    (block_ptr : Nat) (mem : Nat → Nat) : Nat × (Nat → Nat) :=
  if i < unroll_factor then
    unroll_loop code_to_test code_size unroll_factor (i + 1) (block_ptr + code_size)
      (memcpy mem block_ptr code_to_test code_size)
  else (block_ptr, mem)
termination_by unroll_factor - i

/-- The call `insert_jump_to_test_start(addr)`: stores the opcode byte `0xe9` at `addr` and the
`int` value `(long)test_start - (long)addr - SIZE_OF_REL_JUMP`, truncated to 32 bits and
laid out little-endian, at `addr + 1`. Returns `SIZE_OF_REL_JUMP` and the memory. -/
def insert_jump_to_test_start (test_start : Nat) (addr : Nat) (mem : Nat → Nat) :
    Nat × (Nat → Nat) :=
  let disp : Nat :=
    (((test_start : Int) - (addr : Int) - (SIZE_OF_REL_JUMP : Int)) % 2 ^ 32).toNat
  (SIZE_OF_REL_JUMP, fun a =>
    if a = addr then 0xe9
    else if a = addr + 1 then disp % 256
    else if a = addr + 2 then disp / 2 ^ 8 % 256
    else if a = addr + 3 then disp / 2 ^ 16 % 256
    else if a = addr + 4 then disp / 2 ^ 24 % 256
    else mem a)

/-- The copy part of the subject side of `measure`: the unrolled block, then the bytes
`tail_start .. tail_end` (`tail j` is byte `j` of them), then the jump. Returns the final
`block_ptr` and the memory. -/
def inject (test_block test_start : Nat) (code_to_test : Nat → Nat)
    (code_size unroll_factor : Nat) (tail : Nat → Nat) (tail_start tail_end : Nat)
    (mem : Nat → Nat) : Nat × (Nat → Nat) :=
  let tail_size := (tail_end + 2 ^ 64 - tail_start) % 2 ^ 64
  let r := unroll_loop code_to_test code_size unroll_factor 0 test_block mem
  let mem2 := memcpy r.2 r.1 tail tail_size
  let block_ptr := r.1 + tail_size
  let j := insert_jump_to_test_start test_start block_ptr mem2
  (block_ptr + j.1, j.2)

/-- The 32-bit little-endian value stored at `a`. -/
def read_le32 (mem : Nat → Nat) (a : Nat) : Nat :=
  mem a + 2 ^ 8 * mem (a + 1) + 2 ^ 16 * mem (a + 2) + 2 ^ 24 * mem (a + 3)

/-- Sign extension of a 32-bit value. -/
def sext32 (v : Nat) : Int := if v < 2 ^ 31 then (v : Int) else (v : Int) - 2 ^ 32

/-- Target of the `jmp rel32` instruction stored at `addr`, as the processor decodes it:
the address of the next instruction plus the signed displacement. -/
def jump_target (mem : Nat → Nat) (addr : Nat) : Int :=
  (addr : Int) + 5 + sext32 (read_le32 mem (addr + 1))

/-- A one-byte block (`nop`). -/
def code_nop : Nat → Nat := fun _ => 144

/-- A two-byte epilogue. -/
def tail_two : Nat → Nat := fun j => if j = 0 then 204 else 195

/-! ## Concrete subjects used to run the model -/

/-- A trace interface on which every request succeeds. -/
def pt_ok : Ptrace := ⟨0, 0, fun _ => true, fun _ => true⟩

/-- A trace interface on which every request succeeds except the write of the word at
2040. -/
def pt_no_write_2040 : Ptrace := ⟨0, 0, fun _ => true, fun a => decide (a ≠ 2040)⟩

/-- A small stack: words 7, 8, 9 at addresses 1000, 1008, 1016. -/
def mem_small : Int → Int :=
  fun a => if a = 1000 then 7 else if a = 1008 then 8 else if a = 1016 then 9 else 0

/-- Registers of a subject whose frame spans 1000 (stack pointer) to 1016 (frame pointer). -/
def regs_small : user_regs_struct := ⟨1016, 1000, 0, 0⟩

/-- Constants for the runs below: a budget of two faults. -/
def consts_two : Consts := ⟨2, 8192, 16, 4198400⟩

/-- A stop by a memory fault at address 24576 whose redirect succeeds. -/
def stop_fault : Stop := ⟨1234, 11, 24576, ⟨10240, 10224, 4200000, 0⟩, pt_ok, fun _ => 0⟩

/-- A stop by a memory fault at which the register read of the redirect fails. -/
def stop_fault_noregs : Stop :=
  ⟨1234, 11, 24576, ⟨10240, 10224, 4200000, 0⟩, ⟨-1, 0, fun _ => true, fun _ => true⟩,
    fun _ => 0⟩

/-- A stop by `SIGTRAP` (5), with 4242 in every word of the controller's memory. -/
def stop_halt : Stop := ⟨1234, 5, 0, ⟨10240, 10224, 4200100, 0⟩, pt_ok, fun _ => 4242⟩

/-- An environment in which every call before the loop succeeds: the fork returns pid 1234
and the first stop has status `0x137f` (stopped by `SIGSTOP`). -/
def env_ok (stops : Nat → Stop) : MeasureEnv :=
  ⟨3, 1234, 40960, 45056, 49152, 1234, 4991, pt_ok, regs_small, mem_small, fun _ => 0, stops⟩

/-- The subject halts at its first stop in the loop. -/
def stops_halt : Nat → Stop := fun _ => stop_halt

/-- The subject faults twice, then halts. -/
def stops_two_faults : Nat → Stop := fun i => if i < 2 then stop_fault else stop_halt

/-- The subject faults once, then halts. -/
def stops_one_fault : Nat → Stop := fun i => if i < 1 then stop_fault else stop_halt

/-- The subject faults with a failing redirect, then halts. -/
def stops_failed_redirect : Nat → Stop :=
  fun i => if i < 1 then stop_fault_noregs else stop_halt

/-- The fork fails. -/
def env_fork_fails : MeasureEnv := { env_ok stops_halt with fork_ret := -1 }

/-- The first stop has status `0x0b7f`: stopped, by `SIGSEGV`. -/
def env_first_stop_segv : MeasureEnv := { env_ok stops_halt with child_stat := 2943 }

/-! ## Facts about the trace primitives -/

theorem peekdata_mem (pt : Ptrace) (s : Tracee) (p : Int) :
    (peekdata pt s p).2.mem = s.mem := by
  unfold peekdata
  split <;> rfl

theorem peekdata_ok (pt : Ptrace) (s : Tracee) (p : Int) (h : pt.peek_ok p = true) :
    peekdata pt s p = (s.mem p, { s with errno := 0 }) := by
  simp [peekdata, h]

theorem pokedata_ok (pt : Ptrace) (s : Tracee) (p w : Int) (h : pt.poke_ok p = true) :
    pokedata pt s p w = { s with mem := fun a => if a = p then w else s.mem a } := by
  simp [pokedata, h]

theorem pokedata_mem_other (pt : Ptrace) (s : Tracee) (p w a : Int) (h : a ≠ p) :
    (pokedata pt s p w).mem a = s.mem a := by
  unfold pokedata
  split
  · simp [h]
  · rfl

/-- One unfolding of the copy loop. -/
theorem copy_loop_step (pt : Ptrace) (ori_sp p new_p : Int) (s : Tracee) (h : ori_sp < p) :
    copy_loop pt ori_sp p new_p s =
      copy_loop pt ori_sp (p - 8) (new_p - 8)
        (peekdata pt (pokedata pt (peekdata pt s p).2 new_p (peekdata pt s p).1) new_p).2 := by
  rw [copy_loop]
  simp [h]

theorem copy_loop_stop (pt : Ptrace) (ori_sp p new_p : Int) (s : Tracee) (h : ¬ ori_sp < p) :
    copy_loop pt ori_sp p new_p s = s := by
  rw [copy_loop]
  simp [h]

/-- The copy loop writes only to the destination words `new_p - 8 * j`. -/
theorem copy_loop_frame (pt : Ptrace) (ori_sp : Int) :
    ∀ (k : Nat) (p new_p : Int) (s : Tracee), p - ori_sp ≤ 8 * (k : Int) →
      ∀ a : Int, (∀ j : Nat, ori_sp < p - 8 * (j : Int) → a ≠ new_p - 8 * (j : Int)) →
        (copy_loop pt ori_sp p new_p s).mem a = s.mem a := by
  intro k
  induction k with
  | zero =>
    intro p new_p s hk a _
    rw [copy_loop_stop pt ori_sp p new_p s (by omega)]
  | succ k ih =>
    intro p new_p s hk a ha
    by_cases hlt : ori_sp < p
    · rw [copy_loop_step pt ori_sp p new_p s hlt]
      rw [ih (p - 8) (new_p - 8) _ (by push_cast at hk; omega) a]
      · rw [peekdata_mem, pokedata_mem_other, peekdata_mem]
        have := ha 0 (by simpa using hlt)
        simpa using this
      · intro j hj
        have := ha (j + 1) (by push_cast; omega)
        push_cast at this
        intro hEq
        apply this
        omega
    · rw [copy_loop_stop pt ori_sp p new_p s hlt]

/-- When every request of every iteration succeeds, the loop ends with `errno` clear. -/
theorem copy_loop_errno_ok (pt : Ptrace) (ori_sp : Int) :
    ∀ (k : Nat) (p new_p : Int) (s : Tracee), p - ori_sp ≤ 8 * (k : Int) →
      s.errno = 0 →
      (∀ j : Nat, ori_sp < p - 8 * (j : Int) →
        pt.peek_ok (p - 8 * (j : Int)) = true ∧ pt.poke_ok (new_p - 8 * (j : Int)) = true ∧
          pt.peek_ok (new_p - 8 * (j : Int)) = true) →
      (copy_loop pt ori_sp p new_p s).errno = 0 := by
  intro k
  induction k with
  | zero =>
    intro p new_p s hk h0 _
    rw [copy_loop_stop pt ori_sp p new_p s (by omega)]
    exact h0
  | succ k ih =>
    intro p new_p s hk h0 hok
    by_cases hlt : ori_sp < p
    · rw [copy_loop_step pt ori_sp p new_p s hlt]
      obtain ⟨h1, h2, h3⟩ := hok 0 (by simpa using hlt)
      simp only [Nat.cast_zero, mul_zero, sub_zero] at h1 h2 h3
      apply ih (p - 8) (new_p - 8) _ (by push_cast at hk; omega)
      · rw [peekdata_ok pt _ new_p h3]
      · intro j hj
        have := hok (j + 1) (by push_cast; omega)
        have e1 : p - 8 * ((j + 1 : Nat) : Int) = p - 8 - 8 * (j : Int) := by push_cast; ring
        have e2 : new_p - 8 * ((j + 1 : Nat) : Int) = new_p - 8 - 8 * (j : Int) := by
          push_cast; ring
        rw [e1, e2] at this
        exact this
    · rw [copy_loop_stop pt ori_sp p new_p s hlt]
      exact h0

/-- When every read of a source word and every write of a destination word succeeds and no
destination word is a source word, every destination word holds the source word of the
same iteration. -/
theorem copy_loop_copied (pt : Ptrace) (ori_sp : Int) :
    ∀ (k : Nat) (p new_p : Int) (s : Tracee), p - ori_sp ≤ 8 * (k : Int) →
      (∀ j : Nat, ori_sp < p - 8 * (j : Int) →
        pt.peek_ok (p - 8 * (j : Int)) = true ∧ pt.poke_ok (new_p - 8 * (j : Int)) = true) →
      (∀ i j : Nat, ori_sp < p - 8 * (i : Int) → ori_sp < p - 8 * (j : Int) →
        new_p - 8 * (j : Int) ≠ p - 8 * (i : Int)) →
      ∀ j : Nat, ori_sp < p - 8 * (j : Int) →
        (copy_loop pt ori_sp p new_p s).mem (new_p - 8 * (j : Int)) = s.mem (p - 8 * (j : Int)) := by
  intro k
  induction k with
  | zero =>
    intro p new_p s hk _ _ j hj
    omega
  | succ k ih =>
    intro p new_p s hk hok hdis j hj
    have hlt : ori_sp < p := by omega
    have hk2 : p - 8 - ori_sp ≤ 8 * (k : Int) := by push_cast at hk; omega
    obtain ⟨hpk, hpo⟩ := hok 0 (by simpa using hlt)
    simp only [Nat.cast_zero, mul_zero, sub_zero] at hpk hpo
    rw [copy_loop_step pt ori_sp p new_p s hlt]
    have hmem : (peekdata pt (pokedata pt (peekdata pt s p).2 new_p (peekdata pt s p).1)
        new_p).2.mem = fun a => if a = new_p then s.mem p else s.mem a := by
      rw [peekdata_mem, peekdata_ok pt s p hpk, pokedata_ok pt _ new_p _ hpo]
    cases j with
    | zero =>
      rw [copy_loop_frame pt ori_sp k (p - 8) (new_p - 8) _ hk2]
      · rw [hmem]
        simp
      · intro i _
        push_cast
        omega
    | succ j =>
      have e1 : p - 8 * ((j + 1 : Nat) : Int) = p - 8 - 8 * (j : Int) := by push_cast; ring
      have e2 : new_p - 8 * ((j + 1 : Nat) : Int) = new_p - 8 - 8 * (j : Int) := by
        push_cast; ring
      rw [e1, e2]
      rw [ih (p - 8) (new_p - 8) _ hk2 ?_ ?_ j (by rw [← e1]; exact hj)]
      · rw [hmem]
        have := hdis (j + 1) 0 hj (by simpa using hlt)
        rw [e1] at this
        simp only [Nat.cast_zero, mul_zero, sub_zero] at this
        simp [Ne.symm this]
      · intro a ha
        have := hok (a + 1) (by push_cast; omega)
        have f1 : p - 8 * ((a + 1 : Nat) : Int) = p - 8 - 8 * (a : Int) := by push_cast; ring
        have f2 : new_p - 8 * ((a + 1 : Nat) : Int) = new_p - 8 - 8 * (a : Int) := by
          push_cast; ring
        rw [f1, f2] at this
        exact this
      · intro a b ha hb
        have := hdis (a + 1) (b + 1) (by push_cast; omega) (by push_cast; omega)
        push_cast at this
        intro hEq
        apply this
        omega

/-- The sanity check only reads the subject. -/
theorem sanity_check_mem (pt : Ptrace) (ori_bp base : Int) (parent_mem : Int → Int)
    (child_stack : Int) (n : Nat) :
    ∀ (d i : Nat) (s : Tracee), n - i ≤ d →
      (sanity_check pt ori_bp base parent_mem child_stack n i s).1.mem = s.mem := by
  intro d
  induction d with
  | zero =>
    intro i s hd
    rw [sanity_check]
    simp [show ¬ i < n by omega]
  | succ d ih =>
    intro i s hd
    rw [sanity_check]
    by_cases hi : i < n
    · simp only [hi, if_true]
      rw [ih (i + 1) _ (by omega), peekdata_mem, peekdata_mem]
    · simp [hi]

/-- The sanity check prints no original/relocated mismatch when the words it compares
are readable and equal. -/
theorem sanity_check_no_copy_msg (pt : Ptrace) (ori_bp base : Int) (parent_mem : Int → Int)
    (child_stack : Int) (n : Nat) :
    ∀ (d i : Nat) (s : Tracee), n - i ≤ d →
      (∀ j : Nat, i ≤ j → j < n →
        pt.peek_ok (ori_bp - 8 * (j : Int)) = true ∧ pt.peek_ok (base - 8 * (j : Int)) = true ∧
          s.mem (ori_bp - 8 * (j : Int)) = s.mem (base - 8 * (j : Int))) →
      ∀ o w : Int, BugMsg.copy o w ∉
        (sanity_check pt ori_bp base parent_mem child_stack n i s).2 := by
  intro d
  induction d with
  | zero =>
    intro i s hd _ o w
    rw [sanity_check]
    simp [show ¬ i < n by omega]
  | succ d ih =>
    intro i s hd hall o w
    rw [sanity_check]
    by_cases hi : i < n
    · simp only [hi, if_true]
      obtain ⟨hp1, hp2, heq⟩ := hall i (le_refl i) hi
      rw [peekdata_ok pt s _ hp1, peekdata_ok pt _ _ hp2]
      have := ih (i + 1) { s with errno := 0 } (by omega)
        (fun j hj hjn => hall j (by omega) hjn) o w
      simp only [heq, ne_eq, not_true_eq_false, if_false, List.nil_append, List.mem_append,
        not_or]
      refine ⟨?_, this⟩
      split <;> simp
    · simp [hi]

/-- What a return value of `0` from `move_child_stack` says about the run: the copy loop
ended with `errno` clear, and the results are those of the copy loop, the sanity check
and the register write-back. -/
theorem move_child_stack_ret_zero (pt : Ptrace) (regs : user_regs_struct)
    (mem parent_mem : Int → Int) (stack_base_addr : Nat) (child_stack : Int)
    (hret : (move_child_stack pt regs mem parent_mem stack_base_addr child_stack).ret = 0) :
    (copy_loop pt regs.rsp regs.rbp stack_base_addr ⟨mem, 0⟩).errno = 0 ∧
    (move_child_stack pt regs mem parent_mem stack_base_addr child_stack).mem =
      (copy_loop pt regs.rsp regs.rbp stack_base_addr ⟨mem, 0⟩).mem ∧
    (move_child_stack pt regs mem parent_mem stack_base_addr child_stack).log =
      (sanity_check pt regs.rbp stack_base_addr parent_mem child_stack
        ((regs.rbp + 2 ^ 64 - regs.rsp) % 2 ^ 64 / sizeof_long) 0
        (copy_loop pt regs.rsp regs.rbp stack_base_addr ⟨mem, 0⟩)).2 ∧
    (move_child_stack pt regs mem parent_mem stack_base_addr child_stack).regs =
      { regs with rbp := stack_base_addr,
                  rsp := (stack_base_addr + 2 ^ 64 -
                    (regs.rbp + 2 ^ 64 - regs.rsp) % 2 ^ 64) % 2 ^ 64 } := by
  unfold move_child_stack read_child_regs set_child_regs at hret ⊢
  by_cases hg : pt.getregs_ret = -1
  · simp [hg] at hret
  · by_cases he : (copy_loop pt regs.rsp regs.rbp stack_base_addr ⟨mem, 0⟩).errno = 0
    · by_cases hs : pt.setregs_ret = -1
      · simp [hg, he, hs] at hret
      · simp only [hg, he, hs, if_false, ne_eq, not_true_eq_false]
        refine ⟨trivial, ?_, ?_, ?_⟩
        · exact sanity_check_mem pt _ _ parent_mem child_stack _ _ 0 _ (le_refl _)
        · trivial
        · trivial
    · simp [hg, he] at hret

/-- The return value is 0 as soon as the register requests succeed and the copy loop ends
with `errno` clear. -/
theorem move_child_stack_ret_of_errno (pt : Ptrace) (regs : user_regs_struct)
    (mem parent_mem : Int → Int) (stack_base_addr : Nat) (child_stack : Int)
    (hg : pt.getregs_ret ≠ -1) (hs : pt.setregs_ret ≠ -1)
    (he : (copy_loop pt regs.rsp regs.rbp stack_base_addr ⟨mem, 0⟩).errno = 0) :
    (move_child_stack pt regs mem parent_mem stack_base_addr child_stack).ret = 0 := by
  unfold move_child_stack read_child_regs set_child_regs
  simp [hg, he, hs]

/-! ## Claims about the register/stack relocator -/

/-- Where the relocation does what its description says: when the register requests and
every word read and write succeed, `rbp ≥ rsp` are word aligned and no destination word
is a word of the original span, `move_child_stack` returns 0, every one of the
`(rbp - rsp) / sizeof(long)` words arrives at the same distance below `stack_base_addr`,
the original words are unchanged and the sanity check reports no mismatch between
original and relocated words. -/
theorem move_child_stack_copies_when_requests_succeed (pt : Ptrace) (regs : user_regs_struct)
    (mem parent_mem : Int → Int) (stack_base_addr : Nat) (child_stack : Int)
    (hg : pt.getregs_ret ≠ -1) (hs : pt.setregs_ret ≠ -1)
    (hok : ∀ i : Nat, i < (regs.rbp - regs.rsp) / sizeof_long →
      pt.peek_ok ((regs.rbp : Int) - 8 * (i : Int)) = true ∧
      pt.poke_ok ((stack_base_addr : Int) - 8 * (i : Int)) = true ∧
      pt.peek_ok ((stack_base_addr : Int) - 8 * (i : Int)) = true)
    (hfp : regs.rbp < 2 ^ 64) (hge : regs.rsp ≤ regs.rbp)
    (hafp : regs.rbp % sizeof_long = 0) (hasp : regs.rsp % sizeof_long = 0)
    (hdisj : ∀ i j : Nat, i < (regs.rbp - regs.rsp) / sizeof_long →
      j < (regs.rbp - regs.rsp) / sizeof_long →
        (stack_base_addr : Int) - 8 * (j : Int) ≠ (regs.rbp : Int) - 8 * (i : Int)) :
    (move_child_stack pt regs mem parent_mem stack_base_addr child_stack).ret = 0 ∧
    (∀ i : Nat, i < (regs.rbp - regs.rsp) / sizeof_long →
      (move_child_stack pt regs mem parent_mem stack_base_addr child_stack).mem
          ((stack_base_addr : Int) - 8 * (i : Int)) = mem ((regs.rbp : Int) - 8 * (i : Int)) ∧
      (move_child_stack pt regs mem parent_mem stack_base_addr child_stack).mem
          ((regs.rbp : Int) - 8 * (i : Int)) = mem ((regs.rbp : Int) - 8 * (i : Int))) ∧
    ∀ o w : Int, BugMsg.copy o w ∉
      (move_child_stack pt regs mem parent_mem stack_base_addr child_stack).log := by
  simp only [sizeof_long] at hafp hasp hdisj hok ⊢
  have hk : ((regs.rbp : Int) - (regs.rsp : Int)) ≤ 8 * ((regs.rbp : Nat) : Int) := by omega
  have hin : ∀ j : Nat, (regs.rsp : Int) < (regs.rbp : Int) - 8 * (j : Int) ↔
      j < (regs.rbp - regs.rsp) / 8 := by
    intro j
    omega
  have hsize : (regs.rbp + 2 ^ 64 - regs.rsp) % 2 ^ 64 = regs.rbp - regs.rsp := by omega
  have herr := copy_loop_errno_ok pt regs.rsp regs.rbp regs.rbp stack_base_addr ⟨mem, 0⟩ hk rfl
    (fun j hj => hok j ((hin j).1 hj))
  have hret := move_child_stack_ret_of_errno pt regs mem parent_mem stack_base_addr
    child_stack hg hs herr
  obtain ⟨_, hmem, hlog, _⟩ :=
    move_child_stack_ret_zero pt regs mem parent_mem stack_base_addr child_stack hret
  simp only [sizeof_long] at hlog
  have hdis2 : ∀ i j : Nat, (regs.rsp : Int) < (regs.rbp : Int) - 8 * (i : Int) →
      (regs.rsp : Int) < (regs.rbp : Int) - 8 * (j : Int) →
        (stack_base_addr : Int) - 8 * (j : Int) ≠ (regs.rbp : Int) - 8 * (i : Int) :=
    fun i j hi hj => hdisj i j ((hin i).1 hi) ((hin j).1 hj)
  have hcopied := copy_loop_copied pt regs.rsp regs.rbp regs.rbp stack_base_addr ⟨mem, 0⟩
    hk (fun j hj => ⟨(hok j ((hin j).1 hj)).1, (hok j ((hin j).1 hj)).2.1⟩) hdis2
  have hframe := copy_loop_frame pt regs.rsp regs.rbp regs.rbp stack_base_addr ⟨mem, 0⟩ hk
  have hboth : ∀ i : Nat, i < (regs.rbp - regs.rsp) / 8 →
      (copy_loop pt regs.rsp regs.rbp stack_base_addr ⟨mem, 0⟩).mem
          ((stack_base_addr : Int) - 8 * (i : Int)) = mem ((regs.rbp : Int) - 8 * (i : Int)) ∧
      (copy_loop pt regs.rsp regs.rbp stack_base_addr ⟨mem, 0⟩).mem
          ((regs.rbp : Int) - 8 * (i : Int)) = mem ((regs.rbp : Int) - 8 * (i : Int)) := by
    intro i hi
    refine ⟨hcopied i ((hin i).2 hi), ?_⟩
    exact hframe _ (fun j hj => Ne.symm (hdisj i j hi ((hin j).1 hj)))
  refine ⟨hret, fun i hi => by rw [hmem]; exact hboth i hi, ?_⟩
  rw [hlog, hsize]
  apply sanity_check_no_copy_msg pt _ _ parent_mem child_stack _ _ 0 _ (le_refl _)
  intro j _ hj
  obtain ⟨h1, _, h3⟩ := hok j hj
  obtain ⟨e1, e2⟩ := hboth j hj
  exact ⟨h1, h3, by rw [e1, e2]⟩

/-- C4 (evaluation): for the small subject (frame pointer 1016, stack pointer 1000, both
word aligned, destination words 2048 and 2040 apart from the source words) the write of
the word at 2040 fails, the read that follows it succeeds and clears `errno`, and
`move_child_stack` returns 0 although the word at `stack_base_addr - 1` word is still 0
and not the 8 found one word below the frame pointer; its own sanity check prints the
mismatch. -/
theorem move_child_stack_returns_zero_after_failed_poke :
    pt_no_write_2040.poke_ok 2040 = false ∧
    regs_small.rsp ≤ regs_small.rbp ∧
    regs_small.rbp % sizeof_long = 0 ∧ regs_small.rsp % sizeof_long = 0 ∧
    1 < (regs_small.rbp - regs_small.rsp) / sizeof_long ∧
    (∀ i j : Nat, i < (regs_small.rbp - regs_small.rsp) / sizeof_long →
      j < (regs_small.rbp - regs_small.rsp) / sizeof_long →
        ((2048 : Nat) : Int) - 8 * (j : Int) ≠ (regs_small.rbp : Int) - 8 * (i : Int)) ∧
    (move_child_stack pt_no_write_2040 regs_small mem_small (fun _ => 0) 2048 0).ret = 0 ∧
    (move_child_stack pt_no_write_2040 regs_small mem_small (fun _ => 0) 2048 0).mem
      (((2048 : Nat) : Int) - 8 * ((1 : Nat) : Int)) = 0 ∧
    mem_small ((regs_small.rbp : Int) - 8 * ((1 : Nat) : Int)) = 8 ∧
    BugMsg.copy 8 0 ∈
      (move_child_stack pt_no_write_2040 regs_small mem_small (fun _ => 0) 2048 0).log := by
  have hret : (move_child_stack pt_no_write_2040 regs_small mem_small (fun _ => 0)
      2048 0).ret = 0 := by
    simp [move_child_stack, read_child_regs, set_child_regs, pt_no_write_2040, regs_small,
      copy_loop, peekdata, pokedata]
  obtain ⟨_, hmem, hlog, _⟩ :=
    move_child_stack_ret_zero pt_no_write_2040 regs_small mem_small (fun _ => 0) 2048 0 hret
  refine ⟨by simp [pt_no_write_2040], by simp [regs_small], by simp [regs_small, sizeof_long],
    by simp [regs_small, sizeof_long], by simp [regs_small, sizeof_long], ?_, hret, ?_, ?_, ?_⟩
  · intro i j hi hj
    simp [regs_small, sizeof_long] at hi hj ⊢
    omega
  · rw [hmem]
    simp [regs_small, copy_loop, peekdata, pokedata, pt_no_write_2040, mem_small]
  · simp [mem_small, regs_small]
  · rw [hlog]
    simp [regs_small, sizeof_long, sanity_check, copy_loop, peekdata, pokedata,
      pt_no_write_2040, mem_small, PAGE_SIZE]

/-- C10 (evaluation): for the small subject `move_child_stack` returns 0 and installs
2032 as the new stack pointer, yet the word there is still the destination's old content
(0), not the word 7 that was at the original stack pointer 1000. -/
theorem move_child_stack_skips_top_word :
    (move_child_stack pt_ok regs_small mem_small (fun _ => 0) 2048 0).ret = 0 ∧
    (move_child_stack pt_ok regs_small mem_small (fun _ => 0) 2048 0).regs.rsp = 2032 ∧
    (2032 : Int) = 2048 - ((regs_small.rbp : Int) - regs_small.rsp) ∧
    (move_child_stack pt_ok regs_small mem_small (fun _ => 0) 2048 0).mem 2032 = 0 ∧
    mem_small regs_small.rsp = 7 := by
  refine ⟨?_, ?_, ?_, ?_, ?_⟩
  · simp [move_child_stack, read_child_regs, set_child_regs, pt_ok, regs_small, copy_loop,
      peekdata, pokedata]
  · simp [move_child_stack, read_child_regs, set_child_regs, pt_ok, regs_small, copy_loop,
      peekdata, pokedata]
  · simp [regs_small]
  · have h := move_child_stack_ret_zero pt_ok regs_small mem_small (fun _ => 0) 2048 0
      (by simp [move_child_stack, read_child_regs, set_child_regs, pt_ok, regs_small,
        copy_loop, peekdata, pokedata])
    rw [h.2.1]
    simp [regs_small, copy_loop, peekdata, pokedata, pt_ok, mem_small]
  · simp [mem_small, regs_small]

/-! ## The resume/intercept loop, case by case -/

theorem intercept_loop_exhausted (K : Consts) (child child_aux : Int) (stops : Nat → Stop)
    (i : Nat) (h : ¬ i < K.MAX_FAULTS) :
    intercept_loop K child child_aux stops i = ([], LoopExit.exhausted) := by
  rw [intercept_loop]
  simp [h]

theorem intercept_loop_wait_error (K : Consts) (child child_aux : Int) (stops : Nat → Stop)
    (i : Nat) (h : i < K.MAX_FAULTS) (hw : (stops i).wait_ret = -1) :
    intercept_loop K child child_aux stops i =
      ([Event.ptrace_cont child, Event.kill child SIGKILL], LoopExit.wait_error) := by
  rw [intercept_loop]
  simp [h, hw]

theorem intercept_loop_fault (K : Consts) (child child_aux : Int) (stops : Nat → Stop)
    (i : Nat) (h : i < K.MAX_FAULTS) (hw : (stops i).wait_ret ≠ -1)
    (hs : (stops i).si_signo = SIGSEGV) :
    intercept_loop K child child_aux stops i =
      (Event.ptrace_cont child ::
        Event.move_child_to_map_and_restart child (stops i).si_addr
          (move_child_to_map_and_restart (stops i).pt (stops i).regs K.map_and_restart
            (stops i).si_addr).1 ::
        (intercept_loop K child child_aux stops (i + 1)).1,
       (intercept_loop K child child_aux stops (i + 1)).2) := by
  rw [intercept_loop]
  simp [h, hw, hs]

theorem intercept_loop_halt (K : Consts) (child child_aux : Int) (stops : Nat → Stop)
    (i : Nat) (h : i < K.MAX_FAULTS) (hw : (stops i).wait_ret ≠ -1)
    (hs : (stops i).si_signo ≠ SIGSEGV) :
    intercept_loop K child child_aux stops i =
      ([Event.ptrace_cont child, Event.getregs child,
        Event.read_cyc_count ((stops i).parent_mem (child_aux + (K.CYC_COUNT_OFFSET : Int)))],
       LoopExit.done) := by
  rw [intercept_loop]
  simp [h, hw, hs]

/-- When every remaining stop is a memory fault the loop runs out of budget without
reading the cycle count. -/
theorem intercept_loop_all_faults (K : Consts) (child child_aux : Int) (stops : Nat → Stop) :
    ∀ (d i : Nat), K.MAX_FAULTS - i ≤ d →
      (∀ j : Nat, i ≤ j → j < K.MAX_FAULTS →
        (stops j).wait_ret ≠ -1 ∧ (stops j).si_signo = SIGSEGV) →
      (intercept_loop K child child_aux stops i).2 = LoopExit.exhausted ∧
      (∀ v : Nat, Event.read_cyc_count v ∉ (intercept_loop K child child_aux stops i).1) ∧
      count_cont (intercept_loop K child child_aux stops i).1 = K.MAX_FAULTS - i := by
  intro d
  induction d with
  | zero =>
    intro i hd _
    rw [intercept_loop_exhausted K child child_aux stops i (by omega)]
    simp [count_cont]
    omega
  | succ d ih =>
    intro i hd hall
    by_cases h : i < K.MAX_FAULTS
    · obtain ⟨hw, hs⟩ := hall i (le_refl i) h
      rw [intercept_loop_fault K child child_aux stops i h hw hs]
      obtain ⟨h1, h2, h3⟩ := ih (i + 1) (by omega) (fun j hj hjm => hall j (by omega) hjm)
      refine ⟨h1, ?_, ?_⟩
      · intro v
        simp only [List.mem_cons, not_or]
        exact ⟨by simp, by simp, h2 v⟩
      · simp only [count_cont, List.countP_cons] at h3 ⊢
        simp only [if_true, Bool.false_eq_true, if_false]
        omega
    · rw [intercept_loop_exhausted K child child_aux stops i h]
      simp [count_cont]
      omega

/-- After `k` memory faults followed by a stop of another kind, all within the budget
counted from iteration `i`, the loop leaves through the `break`, having captured the
registers and read the cycle count of that stop. -/
theorem intercept_loop_faults_then_halt (K : Consts) (child child_aux : Int)
    (stops : Nat → Stop) :
    ∀ (k i : Nat), i + k < K.MAX_FAULTS →
      (∀ j : Nat, i ≤ j → j < i + k →
        (stops j).wait_ret ≠ -1 ∧ (stops j).si_signo = SIGSEGV) →
      (stops (i + k)).wait_ret ≠ -1 → (stops (i + k)).si_signo ≠ SIGSEGV →
      (intercept_loop K child child_aux stops i).2 = LoopExit.done ∧
      Event.getregs child ∈ (intercept_loop K child child_aux stops i).1 ∧
      Event.read_cyc_count
        ((stops (i + k)).parent_mem (child_aux + (K.CYC_COUNT_OFFSET : Int))) ∈
          (intercept_loop K child child_aux stops i).1 ∧
      count_cont (intercept_loop K child child_aux stops i).1 = k + 1 := by
  intro k
  induction k with
  | zero =>
    intro i hlt _ hw hs
    rw [intercept_loop_halt K child child_aux stops i (by omega) hw hs]
    simp [count_cont]
  | succ k ih =>
    intro i hlt hall hw hs
    obtain ⟨hwi, hsi⟩ := hall i (le_refl i) (by omega)
    rw [intercept_loop_fault K child child_aux stops i (by omega) hwi hsi]
    have e : i + (k + 1) = i + 1 + k := by omega
    rw [e] at hw hs ⊢
    obtain ⟨h1, h2, h3, h4⟩ := ih (i + 1) (by omega)
      (fun j hj hjk => hall j (by omega) (by omega)) hw hs
    refine ⟨h1, ?_, ?_, ?_⟩
    · exact List.mem_cons_of_mem _ (List.mem_cons_of_mem _ h2)
    · exact List.mem_cons_of_mem _ (List.mem_cons_of_mem _ h3)
    · simp only [count_cont, List.countP_cons] at h4 ⊢
      simp only [if_true, Bool.false_eq_true, if_false]
      omega

/-- A loop left through the wait-error path ends its trace with the kill; on the other
exits the trace holds no kill at all. -/
theorem intercept_loop_last (K : Consts) (child child_aux : Int) (stops : Nat → Stop) :
    ∀ (d i : Nat), K.MAX_FAULTS - i ≤ d →
      ((intercept_loop K child child_aux stops i).2 = LoopExit.wait_error →
        (intercept_loop K child child_aux stops i).1.getLast? =
          some (Event.kill child SIGKILL)) ∧
      ∀ e ∈ (intercept_loop K child child_aux stops i).1, ∀ pid sig,
        e = Event.kill pid sig → pid = child := by
  intro d
  induction d with
  | zero =>
    intro i hd
    rw [intercept_loop_exhausted K child child_aux stops i (by omega)]
    simp
  | succ d ih =>
    intro i hd
    by_cases h : i < K.MAX_FAULTS
    · by_cases hw : (stops i).wait_ret = -1
      · rw [intercept_loop_wait_error K child child_aux stops i h hw]
        simp
      · by_cases hs : (stops i).si_signo = SIGSEGV
        · rw [intercept_loop_fault K child child_aux stops i h hw hs]
          obtain ⟨h1, h2⟩ := ih (i + 1) (by omega)
          refine ⟨?_, ?_⟩
          · intro hx
            have hl := h1 hx
            cases hrest : (intercept_loop K child child_aux stops (i + 1)).1 with
            | nil => rw [hrest] at hl; simp at hl
            | cons a t =>
              rw [hrest] at hl
              simpa [List.getLast?_cons_cons] using hl
          · intro e he pid sig hek
            simp only [List.mem_cons] at he
            rcases he with he | he | he
            · rw [he] at hek; cases hek
            · rw [he] at hek; cases hek
            · exact h2 e he pid sig hek
        · rw [intercept_loop_halt K child child_aux stops i h hw hs]
          simp
    · rw [intercept_loop_exhausted K child child_aux stops i h]
      simp

/-! ## Claims about the process orchestrator -/

/-- The trace of `measure` once the stack has been relocated: the relocation, the loop,
and the final kill unless the loop already returned through its wait-error path. -/
theorem measure_after_relocation {R : Type} (K : Consts) (env : MeasureEnv) (res : R)
    (hshm : env.shm_fd ≠ -1) (hf1 : env.fork_ret ≠ -1) (hf0 : env.fork_ret ≠ 0)
    (hm1 : env.child_mem ≠ -1) (hm2 : env.child_aux ≠ -1) (hm3 : env.child_stack ≠ -1)
    (hw : env.wait_ret ≠ -1) (hst : WIFSTOPPED env.child_stat = true)
    (hmv : (move_child_stack env.pt env.regs env.mem env.parent_mem
      (K.STACK_PAGE_ADDR + PAGE_SIZE / 2) env.child_stack).ret = 0) :
    (measure K env res).ret = some (-1) ∧ (measure K env res).res = res ∧
    (measure K env res).trace =
      Event.move_child_stack env.fork_ret 0 ::
        ((intercept_loop K env.fork_ret env.child_aux env.stops 0).1 ++
          if (intercept_loop K env.fork_ret env.child_aux env.stops 0).2 = LoopExit.wait_error
          then [] else [Event.kill env.fork_ret SIGKILL]) := by
  unfold measure
  simp only [hshm, hf1, hf0, hm1, hm2, hm3, hw, hst, hmv, if_false, ne_eq, not_false_eq_true,
    if_true, not_true_eq_false]
  cases hx : (intercept_loop K env.fork_ret env.child_aux env.stops 0).2 <;> simp

/-- C3: on every path of `measure` that returns after the fork has succeeded in the
controller, the last thing `measure` does before returning is to send `SIGKILL` to the
subject's pid, and no kill goes to any other pid. -/
theorem measure_kills_forked_subject {R : Type} (K : Consts) (env : MeasureEnv) (res : R)
    (hshm : env.shm_fd ≠ -1) (hfork : 0 < env.fork_ret) :
    (measure K env res).ret = some (-1) ∧
    (measure K env res).trace.getLast? = some (Event.kill env.fork_ret SIGKILL) ∧
    ∀ pid sig, Event.kill pid sig ∈ (measure K env res).trace → pid = env.fork_ret := by
  have hf1 : env.fork_ret ≠ -1 := by omega
  have hf0 : env.fork_ret ≠ 0 := by omega
  by_cases hm1 : env.child_mem = -1
  · simp [measure, hshm, hf1, hf0, hm1]
  by_cases hm2 : env.child_aux = -1
  · simp [measure, hshm, hf1, hf0, hm1, hm2]
  by_cases hm3 : env.child_stack = -1
  · simp [measure, hshm, hf1, hf0, hm1, hm2, hm3]
  by_cases hw : env.wait_ret = -1
  · simp [measure, hshm, hf1, hf0, hm1, hm2, hm3, hw]
  by_cases hst : WIFSTOPPED env.child_stat = true
  · by_cases hmv : (move_child_stack env.pt env.regs env.mem env.parent_mem
        (K.STACK_PAGE_ADDR + PAGE_SIZE / 2) env.child_stack).ret = 0
    · obtain ⟨hr, _, ht⟩ :=
        measure_after_relocation K env res hshm hf1 hf0 hm1 hm2 hm3 hw hst hmv
      obtain ⟨hlast, hkill⟩ := intercept_loop_last K env.fork_ret env.child_aux env.stops
        K.MAX_FAULTS 0 (by omega)
      refine ⟨hr, ?_, ?_⟩
      · rw [ht]
        by_cases hx :
            (intercept_loop K env.fork_ret env.child_aux env.stops 0).2 = LoopExit.wait_error
        · have hl := hlast hx
          simp only [hx, if_true, List.append_nil]
          cases hrest : (intercept_loop K env.fork_ret env.child_aux env.stops 0).1 with
          | nil => rw [hrest] at hl; simp at hl
          | cons a t =>
            rw [hrest] at hl
            simpa [List.getLast?_cons_cons] using hl
        · simp only [hx, if_false]
          rw [← List.cons_append, List.getLast?_append]
          simp
      · intro pid sig hmem
        rw [ht] at hmem
        simp only [List.mem_cons, List.mem_append] at hmem
        rcases hmem with hmem | hmem | hmem
        · cases hmem
        · exact hkill _ hmem pid sig rfl
        · split at hmem
          · simp at hmem
          · simp only [List.mem_singleton] at hmem
            cases hmem
            rfl
    · simp [measure, hshm, hf1, hf0, hm1, hm2, hm3, hw, hst, hmv]
  · simp [measure, hshm, hf1, hf0, hm1, hm2, hm3, hw, hst]

/-- The relocation of the small subject to the stack page of `consts_two` returns 0. -/
theorem env_ok_relocates (stops : Nat → Stop) :
    (move_child_stack (env_ok stops).pt (env_ok stops).regs (env_ok stops).mem
      (env_ok stops).parent_mem (consts_two.STACK_PAGE_ADDR + PAGE_SIZE / 2)
      (env_ok stops).child_stack).ret = 0 := by
  show (move_child_stack pt_ok regs_small mem_small (fun _ => 0) 10240 49152).ret = 0
  simp [move_child_stack, read_child_regs, set_child_regs, pt_ok, regs_small, copy_loop,
    peekdata, pokedata]

/-- C3 at a run that halts at its first stop in the loop. -/
theorem measure_kills_forked_subject_witness :
    (measure consts_two (env_ok stops_halt) ()).ret = some (-1) ∧
    (measure consts_two (env_ok stops_halt) ()).trace.getLast? =
      some (Event.kill (env_ok stops_halt).fork_ret SIGKILL) ∧
    ∀ pid sig, Event.kill pid sig ∈ (measure consts_two (env_ok stops_halt) ()).trace →
      pid = (env_ok stops_halt).fork_ret :=
  measure_kills_forked_subject consts_two (env_ok stops_halt) ()
    (by simp [env_ok]) (by simp [env_ok])

/-- The shapes the result of `measure` can take: an early return with at most one kill, a
failed relocation, the subject side of the fork, or a run through the loop. -/
theorem measure_cases {R : Type} (K : Consts) (env : MeasureEnv) (res : R) :
    ((measure K env res).ret = some (-1) ∧ (measure K env res).trace = []) ∨
    ((measure K env res).ret = some (-1) ∧
      (measure K env res).trace = [Event.kill env.fork_ret SIGKILL]) ∨
    ((measure K env res).ret = some (-1) ∧ ∃ r : Int,
      (measure K env res).trace =
        [Event.move_child_stack env.fork_ret r, Event.kill env.fork_ret SIGKILL]) ∨
    (env.fork_ret = 0 ∧ (measure K env res).ret = none ∧ (measure K env res).trace = []) ∨
    ((measure K env res).ret = some (-1) ∧
      (measure K env res).trace =
        Event.move_child_stack env.fork_ret 0 ::
          ((intercept_loop K env.fork_ret env.child_aux env.stops 0).1 ++
            if (intercept_loop K env.fork_ret env.child_aux env.stops 0).2 =
              LoopExit.wait_error
            then [] else [Event.kill env.fork_ret SIGKILL])) := by
  by_cases hshm : env.shm_fd = -1
  · left
    simp [measure, hshm]
  by_cases hf1 : env.fork_ret = -1
  · right; left
    simp [measure, hshm, hf1]
  by_cases hf0 : env.fork_ret = 0
  · right; right; right; left
    simp [measure, hshm, hf0]
  by_cases hm1 : env.child_mem = -1
  · right; left
    simp [measure, hshm, hf1, hf0, hm1]
  by_cases hm2 : env.child_aux = -1
  · right; left
    simp [measure, hshm, hf1, hf0, hm1, hm2]
  by_cases hm3 : env.child_stack = -1
  · right; left
    simp [measure, hshm, hf1, hf0, hm1, hm2, hm3]
  by_cases hw : env.wait_ret = -1
  · right; left
    simp [measure, hshm, hf1, hf0, hm1, hm2, hm3, hw]
  by_cases hst : WIFSTOPPED env.child_stat = true
  · by_cases hmv : (move_child_stack env.pt env.regs env.mem env.parent_mem
        (K.STACK_PAGE_ADDR + PAGE_SIZE / 2) env.child_stack).ret = 0
    · right; right; right; right
      obtain ⟨hr, _, ht⟩ :=
        measure_after_relocation K env res hshm hf1 hf0 hm1 hm2 hm3 hw hst hmv
      exact ⟨hr, ht⟩
    · right; right; left
      simp [measure, hshm, hf1, hf0, hm1, hm2, hm3, hw, hst, hmv]
  · right; left
    simp [measure, hshm, hf1, hf0, hm1, hm2, hm3, hw, hst]

/-- C2 (as amended): for every `k` strictly below `MAX_FAULTS`, when the first `k` stops are
memory faults that are each redirected successfully and the next stop is not a memory
fault, the loop observes that stop and leaves through the `break`, after capturing the
registers and reading the aux-page result of that stop. -/
theorem intercept_loop_done_below_budget (K : Consts) (child child_aux : Int)
    (stops : Nat → Stop) (k : Nat) (hk : k < K.MAX_FAULTS)
    (hfaults : ∀ j : Nat, j < k →
      (stops j).wait_ret ≠ -1 ∧ (stops j).si_signo = SIGSEGV ∧
        (move_child_to_map_and_restart (stops j).pt (stops j).regs K.map_and_restart
          (stops j).si_addr).1 ≠ -1)
    (hwait : (stops k).wait_ret ≠ -1) (hhalt : (stops k).si_signo ≠ SIGSEGV) :
    (intercept_loop K child child_aux stops 0).2 = LoopExit.done ∧
    Event.getregs child ∈ (intercept_loop K child child_aux stops 0).1 ∧
    Event.read_cyc_count ((stops k).parent_mem (child_aux + (K.CYC_COUNT_OFFSET : Int))) ∈
      (intercept_loop K child child_aux stops 0).1 ∧
    count_cont (intercept_loop K child child_aux stops 0).1 = k + 1 := by
  have h := intercept_loop_faults_then_halt K child child_aux stops k 0 (by omega)
    (fun j _ hj => ⟨(hfaults j (by omega)).1, (hfaults j (by omega)).2.1⟩)
    (by simpa using hwait) (by simpa using hhalt)
  simpa using h

/-- C2 (as amended) at a subject that faults once and then halts, with a budget of two. -/
theorem intercept_loop_done_below_budget_witness :
    (intercept_loop consts_two 1234 45056 stops_one_fault 0).2 = LoopExit.done ∧
    Event.getregs 1234 ∈ (intercept_loop consts_two 1234 45056 stops_one_fault 0).1 ∧
    Event.read_cyc_count
      ((stops_one_fault 1).parent_mem (45056 + (consts_two.CYC_COUNT_OFFSET : Int))) ∈
      (intercept_loop consts_two 1234 45056 stops_one_fault 0).1 ∧
    count_cont (intercept_loop consts_two 1234 45056 stops_one_fault 0).1 = 1 + 1 :=
  intercept_loop_done_below_budget consts_two 1234 45056 stops_one_fault 1
    (by simp [consts_two])
    (by
      intro j hj
      have hj0 : j = 0 := by omega
      subst hj0
      simp [stops_one_fault, stop_fault, SIGSEGV, move_child_to_map_and_restart,
        read_child_regs, set_child_regs, pt_ok])
    (by simp [stops_one_fault, stop_halt])
    (by simp [stops_one_fault, stop_halt, SIGSEGV])

/-- C2 (counterexample): with a budget of two, a subject whose first two stops are
successfully redirected memory faults and whose third stop is a halt satisfies the
premises at `k = MAX_FAULTS`, yet the loop ends with the budget exhausted after two
resumes and reads no cycle count. -/
theorem intercept_loop_budget_boundary :
    (2 ≤ consts_two.MAX_FAULTS) ∧
    (∀ j : Nat, j < 2 →
      (stops_two_faults j).wait_ret ≠ -1 ∧ (stops_two_faults j).si_signo = SIGSEGV ∧
        (move_child_to_map_and_restart (stops_two_faults j).pt (stops_two_faults j).regs
          consts_two.map_and_restart (stops_two_faults j).si_addr).1 ≠ -1) ∧
    (stops_two_faults 2).wait_ret ≠ -1 ∧ (stops_two_faults 2).si_signo ≠ SIGSEGV ∧
    (intercept_loop consts_two 1234 45056 stops_two_faults 0).2 = LoopExit.exhausted ∧
    (intercept_loop consts_two 1234 45056 stops_two_faults 0).2 ≠ LoopExit.done ∧
    count_cont (intercept_loop consts_two 1234 45056 stops_two_faults 0).1 = 2 ∧
    ∀ v : Nat, Event.read_cyc_count v ∉
      (intercept_loop consts_two 1234 45056 stops_two_faults 0).1 := by
  have hall : ∀ j : Nat, 0 ≤ j → j < consts_two.MAX_FAULTS →
      (stops_two_faults j).wait_ret ≠ -1 ∧ (stops_two_faults j).si_signo = SIGSEGV := by
    intro j _ hj
    have hj2 : j < 2 := by simpa [consts_two] using hj
    simp [stops_two_faults, hj2, stop_fault, SIGSEGV]
  obtain ⟨h1, h2, h3⟩ := intercept_loop_all_faults consts_two 1234 45056 stops_two_faults
    consts_two.MAX_FAULTS 0 (by omega) hall
  refine ⟨by simp [consts_two], ?_, by simp [stops_two_faults, stop_halt],
    by simp [stops_two_faults, stop_halt, SIGSEGV], h1, by rw [h1]; decide,
    by simpa [consts_two] using h3, h2⟩
  intro j hj
  simp [stops_two_faults, hj, stop_fault, SIGSEGV, move_child_to_map_and_restart,
    read_child_regs, set_child_regs, pt_ok]

/-- Neither the return value nor the object behind `res` ever carries a result: `measure`
hands `res` back untouched and returns `-1` whenever it returns to the caller. -/
theorem measure_never_reports {R : Type} (K : Consts) (env : MeasureEnv) (res : R) :
    (measure K env res).res = res ∧
    ((measure K env res).ret = some (-1) ∨ (measure K env res).ret = none) := by
  refine ⟨?_, ?_⟩
  · by_cases hshm : env.shm_fd = -1
    · simp [measure, hshm]
    by_cases hf1 : env.fork_ret = -1
    · simp [measure, hshm, hf1]
    by_cases hf0 : env.fork_ret = 0
    · simp [measure, hshm, hf0]
    by_cases hm1 : env.child_mem = -1
    · simp [measure, hshm, hf1, hf0, hm1]
    by_cases hm2 : env.child_aux = -1
    · simp [measure, hshm, hf1, hf0, hm1, hm2]
    by_cases hm3 : env.child_stack = -1
    · simp [measure, hshm, hf1, hf0, hm1, hm2, hm3]
    by_cases hw : env.wait_ret = -1
    · simp [measure, hshm, hf1, hf0, hm1, hm2, hm3, hw]
    by_cases hst : WIFSTOPPED env.child_stat = true
    · by_cases hmv : (move_child_stack env.pt env.regs env.mem env.parent_mem
          (K.STACK_PAGE_ADDR + PAGE_SIZE / 2) env.child_stack).ret = 0
      · exact (measure_after_relocation K env res hshm hf1 hf0 hm1 hm2 hm3 hw hst hmv).2.1
      · simp [measure, hshm, hf1, hf0, hm1, hm2, hm3, hw, hst, hmv]
    · simp [measure, hshm, hf1, hf0, hm1, hm2, hm3, hw, hst]
  · rcases measure_cases K env res with h | h | ⟨h, _⟩ | ⟨_, h, _⟩ | ⟨h, _⟩
    · exact Or.inl h.1
    · exact Or.inl h.1
    · exact Or.inl h
    · exact Or.inr h
    · exact Or.inl h

/-- C1 (evaluation): in a run where the fork succeeds, the stack is relocated and the
first stop in the loop is a halt (the clean DONE transition) with 4242 stored at the
aux page's result offset, `measure` reads 4242, kills the subject, returns `-1` and leaves
the results object as it was (here 0). -/
theorem measure_done_returns_error :
    (measure consts_two (env_ok stops_halt) (0 : Nat)).trace =
      [Event.move_child_stack 1234 0, Event.ptrace_cont 1234, Event.getregs 1234,
        Event.read_cyc_count 4242, Event.kill 1234 SIGKILL] ∧
    (measure consts_two (env_ok stops_halt) (0 : Nat)).ret = some (-1) ∧
    (measure consts_two (env_ok stops_halt) (0 : Nat)).res = 0 := by
  obtain ⟨hr, hres, ht⟩ := measure_after_relocation consts_two (env_ok stops_halt) (0 : Nat)
    (by simp [env_ok]) (by simp [env_ok]) (by simp [env_ok]) (by simp [env_ok])
    (by simp [env_ok]) (by simp [env_ok]) (by simp [env_ok])
    (by simp [env_ok, WIFSTOPPED]) (env_ok_relocates stops_halt)
  refine ⟨?_, hr, hres⟩
  rw [ht]
  simp [env_ok, intercept_loop, consts_two, stops_halt, stop_halt, SIGSEGV]

/-- C5 (evaluation): with a budget of two, when the first stop in the loop is a memory
fault and the register read of `move_child_to_map_and_restart` fails (it returns `-1`),
`measure` resumes the subject a second time before it kills it. -/
theorem measure_resumes_after_failed_redirect :
    (move_child_to_map_and_restart (stops_failed_redirect 0).pt (stops_failed_redirect 0).regs
      consts_two.map_and_restart (stops_failed_redirect 0).si_addr).1 = -1 ∧
    (measure consts_two (env_ok stops_failed_redirect) ()).trace =
      [Event.move_child_stack 1234 0, Event.ptrace_cont 1234,
        Event.move_child_to_map_and_restart 1234 24576 (-1), Event.ptrace_cont 1234,
        Event.getregs 1234, Event.read_cyc_count 4242, Event.kill 1234 SIGKILL] := by
  obtain ⟨_, _, ht⟩ := measure_after_relocation consts_two (env_ok stops_failed_redirect) ()
    (by simp [env_ok]) (by simp [env_ok]) (by simp [env_ok]) (by simp [env_ok])
    (by simp [env_ok]) (by simp [env_ok]) (by simp [env_ok])
    (by simp [env_ok, WIFSTOPPED]) (env_ok_relocates stops_failed_redirect)
  refine ⟨?_, ?_⟩
  · simp [stops_failed_redirect, stop_fault_noregs, move_child_to_map_and_restart,
      read_child_regs]
  · rw [ht]
    simp [env_ok, intercept_loop, consts_two, stops_failed_redirect, stop_fault_noregs,
      stop_halt, SIGSEGV, move_child_to_map_and_restart, read_child_regs]

/-- C6 (evaluation): when the first stop has status `0x0b7f` (stopped by `SIGSEGV`, not by
`SIGSTOP`), `measure` still calls `move_child_stack` and resumes the subject. -/
theorem measure_accepts_any_stop_signal :
    WIFSTOPPED env_first_stop_segv.child_stat = true ∧
    WSTOPSIG env_first_stop_segv.child_stat = SIGSEGV ∧
    WSTOPSIG env_first_stop_segv.child_stat ≠ SIGSTOP ∧
    (measure consts_two env_first_stop_segv ()).trace =
      [Event.move_child_stack 1234 0, Event.ptrace_cont 1234, Event.getregs 1234,
        Event.read_cyc_count 4242, Event.kill 1234 SIGKILL] := by
  obtain ⟨_, _, ht⟩ := measure_after_relocation consts_two env_first_stop_segv ()
    (by simp [env_first_stop_segv, env_ok]) (by simp [env_first_stop_segv, env_ok])
    (by simp [env_first_stop_segv, env_ok]) (by simp [env_first_stop_segv, env_ok])
    (by simp [env_first_stop_segv, env_ok]) (by simp [env_first_stop_segv, env_ok])
    (by simp [env_first_stop_segv, env_ok])
    (by simp [env_first_stop_segv, env_ok, WIFSTOPPED]) (env_ok_relocates stops_halt)
  refine ⟨by simp [env_first_stop_segv, WIFSTOPPED],
    by simp [env_first_stop_segv, WSTOPSIG, SIGSEGV],
    by simp [env_first_stop_segv, WSTOPSIG, SIGSTOP], ?_⟩
  rw [ht]
  simp [env_first_stop_segv, env_ok, intercept_loop, consts_two, stops_halt, stop_halt,
    SIGSEGV]

/-- C9 (evaluation): when `fork` fails and returns `-1`, `measure` calls
`kill(-1, SIGKILL)` before returning. -/
theorem measure_kills_pid_minus_one :
    env_fork_fails.fork_ret = -1 ∧
    (measure consts_two env_fork_fails ()).trace = [Event.kill (-1) SIGKILL] ∧
    (measure consts_two env_fork_fails ()).ret = some (-1) := by
  simp [measure, env_fork_fails, env_ok]

/-! ## Claims about the code injector -/

/-- Where the unrolling loop leaves `block_ptr`. -/
theorem unroll_loop_ptr (c : Nat → Nat) (cs uf : Nat) :
    ∀ (d i bp : Nat) (mem : Nat → Nat), uf - i = d →
      (unroll_loop c cs uf i bp mem).1 = bp + d * cs := by
  intro d
  induction d with
  | zero =>
    intro i bp mem hd
    rw [unroll_loop]
    simp [show ¬ i < uf by omega]
  | succ d ih =>
    intro i bp mem hd
    rw [unroll_loop]
    simp only [show i < uf by omega, if_true]
    rw [ih (i + 1) _ _ (by omega), Nat.succ_mul]
    omega

/-- The unrolling loop leaves bytes outside the unrolled region alone. -/
theorem unroll_loop_frame (c : Nat → Nat) (cs uf : Nat) :
    ∀ (d i bp : Nat) (mem : Nat → Nat), uf - i = d →
      ∀ a : Nat, (a < bp ∨ bp + d * cs ≤ a) → (unroll_loop c cs uf i bp mem).2 a = mem a := by
  intro d
  induction d with
  | zero =>
    intro i bp mem hd a _
    rw [unroll_loop]
    simp [show ¬ i < uf by omega]
  | succ d ih =>
    intro i bp mem hd a ha
    rw [unroll_loop]
    simp only [show i < uf by omega, if_true]
    rw [Nat.succ_mul] at ha
    rw [ih (i + 1) _ _ (by omega) a (by omega)]
    unfold memcpy
    have : ¬ (bp ≤ a ∧ a < bp + cs) := by omega
    simp [this]

/-- Copy number `t` of the remaining ones holds the block. -/
theorem unroll_loop_copies (c : Nat → Nat) (cs uf : Nat) :
    ∀ (d i bp : Nat) (mem : Nat → Nat), uf - i = d →
      ∀ t j : Nat, t < d → j < cs → (unroll_loop c cs uf i bp mem).2 (bp + t * cs + j) = c j := by
  intro d
  induction d with
  | zero =>
    intro i bp mem _ t j ht _
    omega
  | succ d ih =>
    intro i bp mem hd t j ht hj
    rw [unroll_loop]
    simp only [show i < uf by omega, if_true]
    cases t with
    | zero =>
      rw [unroll_loop_frame c cs uf d (i + 1) _ _ (by omega) _ (by omega)]
      unfold memcpy
      have : bp ≤ bp + 0 * cs + j ∧ bp + 0 * cs + j < bp + cs := by omega
      simp only [this, and_self, if_true]
      congr 1
      omega
    | succ t =>
      have e : bp + (t + 1) * cs + j = bp + cs + t * cs + j := by
        rw [Nat.succ_mul]
        omega
      rw [e]
      exact ih (i + 1) _ _ (by omega) t j (by omega) hj

/-- The four displacement bytes written by `insert_jump_to_test_start` decode, with sign
extension, to the displacement itself when it fits in a signed 32-bit integer. -/
theorem rel32_roundtrip (D : Int) (hlo : -(2 ^ 31) ≤ D) (hhi : D < 2 ^ 31) :
    sext32 ((D % 2 ^ 32).toNat % 256 + 2 ^ 8 * ((D % 2 ^ 32).toNat / 2 ^ 8 % 256) +
      2 ^ 16 * ((D % 2 ^ 32).toNat / 2 ^ 16 % 256) +
      2 ^ 24 * ((D % 2 ^ 32).toNat / 2 ^ 24 % 256)) = D := by
  have hb : (D % 2 ^ 32).toNat < 2 ^ 32 := by omega
  have hsum : (D % 2 ^ 32).toNat % 256 + 2 ^ 8 * ((D % 2 ^ 32).toNat / 2 ^ 8 % 256) +
      2 ^ 16 * ((D % 2 ^ 32).toNat / 2 ^ 16 % 256) +
      2 ^ 24 * ((D % 2 ^ 32).toNat / 2 ^ 24 % 256) = (D % 2 ^ 32).toNat := by
    omega
  rw [hsum]
  unfold sext32
  split <;> omega

/-- The jump written by `insert_jump_to_test_start` at `addr` decodes to `test_start` when
the distance fits in a signed 32-bit integer. -/
theorem insert_jump_target (test_start addr : Nat) (mem : Nat → Nat)
    (hlo : -(2 ^ 31) ≤ (test_start : Int) - (addr : Int) - 5)
    (hhi : (test_start : Int) - (addr : Int) - 5 < 2 ^ 31) :
    jump_target (insert_jump_to_test_start test_start addr mem).2 addr = (test_start : Int) := by
  have hrt := rel32_roundtrip _ hlo hhi
  have h2 : addr + 1 + 1 = addr + 2 := by omega
  have h3 : addr + 1 + 2 = addr + 3 := by omega
  have h4 : addr + 1 + 3 = addr + 4 := by omega
  have b1 : (insert_jump_to_test_start test_start addr mem).2 (addr + 1) =
      (((test_start : Int) - (addr : Int) - 5) % 2 ^ 32).toNat % 256 := by
    simp [insert_jump_to_test_start, SIZE_OF_REL_JUMP]
  have b2 : (insert_jump_to_test_start test_start addr mem).2 (addr + 2) =
      (((test_start : Int) - (addr : Int) - 5) % 2 ^ 32).toNat / 2 ^ 8 % 256 := by
    simp [insert_jump_to_test_start, SIZE_OF_REL_JUMP]
  have b3 : (insert_jump_to_test_start test_start addr mem).2 (addr + 3) =
      (((test_start : Int) - (addr : Int) - 5) % 2 ^ 32).toNat / 2 ^ 16 % 256 := by
    simp [insert_jump_to_test_start, SIZE_OF_REL_JUMP]
  have b4 : (insert_jump_to_test_start test_start addr mem).2 (addr + 4) =
      (((test_start : Int) - (addr : Int) - 5) % 2 ^ 32).toNat / 2 ^ 24 % 256 := by
    simp [insert_jump_to_test_start, SIZE_OF_REL_JUMP]
  unfold jump_target read_le32
  rw [h2, h3, h4, b1, b2, b3, b4, hrt]
  ring

/-- C7: the bytes the injector leaves at `test_block` are `unroll_factor` back-to-back
copies of the block, then the epilogue bytes, then a 5-byte relative jump: opcode `0xE9`
followed by a 32-bit displacement whose decoded target (jump address + 5 + displacement)
is `test_start` whenever that distance fits in a signed 32-bit integer. -/
theorem inject_layout (test_block test_start : Nat) (code_to_test : Nat → Nat)
    (code_size unroll_factor : Nat) (tail : Nat → Nat) (tail_start tail_end : Nat)
    (mem : Nat → Nat) :
    (∀ i j : Nat, i < unroll_factor → j < code_size →
      (inject test_block test_start code_to_test code_size unroll_factor tail tail_start
        tail_end mem).2 (test_block + i * code_size + j) = code_to_test j) ∧
    (∀ j : Nat, j < (tail_end + 2 ^ 64 - tail_start) % 2 ^ 64 →
      (inject test_block test_start code_to_test code_size unroll_factor tail tail_start
        tail_end mem).2 (test_block + unroll_factor * code_size + j) = tail j) ∧
    (inject test_block test_start code_to_test code_size unroll_factor tail tail_start
      tail_end mem).2
        (test_block + unroll_factor * code_size + (tail_end + 2 ^ 64 - tail_start) % 2 ^ 64) =
      0xe9 ∧
    (inject test_block test_start code_to_test code_size unroll_factor tail tail_start
      tail_end mem).1 =
        test_block + unroll_factor * code_size + (tail_end + 2 ^ 64 - tail_start) % 2 ^ 64 + 5 ∧
    (-(2 ^ 31) ≤ (test_start : Int) -
          ((test_block + unroll_factor * code_size +
            (tail_end + 2 ^ 64 - tail_start) % 2 ^ 64 : Nat) : Int) - 5 →
      (test_start : Int) -
          ((test_block + unroll_factor * code_size +
            (tail_end + 2 ^ 64 - tail_start) % 2 ^ 64 : Nat) : Int) - 5 < 2 ^ 31 →
      jump_target
        (inject test_block test_start code_to_test code_size unroll_factor tail tail_start
          tail_end mem).2
        (test_block + unroll_factor * code_size + (tail_end + 2 ^ 64 - tail_start) % 2 ^ 64) =
        (test_start : Int)) := by
  have hptr := unroll_loop_ptr code_to_test code_size unroll_factor unroll_factor 0 test_block
    mem (by omega)
  generalize hts : (tail_end + 2 ^ 64 - tail_start) % 2 ^ 64 = ts
  generalize hU : unroll_factor * code_size = U at hptr
  refine ⟨?_, ?_, ?_, ?_, ?_⟩
  · intro i j hi hj
    have hlt : i * code_size + j < U := by
      have h1 : (i + 1) * code_size ≤ unroll_factor * code_size :=
        Nat.mul_le_mul_right _ (by omega)
      rw [Nat.succ_mul] at h1
      omega
    have hcopy := unroll_loop_copies code_to_test code_size unroll_factor unroll_factor 0
      test_block mem (by omega) i j hi hj
    simp only [inject, insert_jump_to_test_start, memcpy, hts, hptr]
    rw [if_neg (by omega), if_neg (by omega), if_neg (by omega), if_neg (by omega),
      if_neg (by omega), if_neg (by omega)]
    exact hcopy
  · intro j hj
    simp only [inject, insert_jump_to_test_start, memcpy, hts, hptr]
    rw [if_neg (by omega), if_neg (by omega), if_neg (by omega), if_neg (by omega),
      if_neg (by omega), if_pos (by omega)]
    congr 1
    omega
  · simp only [inject, insert_jump_to_test_start, hts, hptr]
    simp
  · simp only [inject, insert_jump_to_test_start, hts, hptr, SIZE_OF_REL_JUMP]
  · intro hlo hhi
    have h := insert_jump_target test_start (test_block + U + ts)
      (memcpy (unroll_loop code_to_test code_size unroll_factor 0 test_block mem).2
        (test_block + U) tail ts) hlo hhi
    simpa only [inject, hts, hptr] using h

/-- C7 at a one-byte block unrolled three times at 8192, a two-byte epilogue and
`test_start` at 8000: the last copy, the last epilogue byte and the jump target. -/
theorem inject_layout_witness :
    (inject 8192 8000 code_nop 1 3 tail_two 9000 9002 (fun _ => 0)).2 (8192 + 2 * 1 + 0) =
      code_nop 0 ∧
    (inject 8192 8000 code_nop 1 3 tail_two 9000 9002 (fun _ => 0)).2 (8192 + 3 * 1 + 1) =
      tail_two 1 ∧
    jump_target (inject 8192 8000 code_nop 1 3 tail_two 9000 9002 (fun _ => 0)).2
      (8192 + 3 * 1 + (9002 + 2 ^ 64 - 9000) % 2 ^ 64) = ((8000 : Nat) : Int) :=
  have h := inject_layout 8192 8000 code_nop 1 3 tail_two 9000 9002 (fun _ => 0)
  ⟨h.1 2 0 (by decide) (by decide), h.2.1 1 (by decide),
    h.2.2.2.2 (by decide) (by decide)⟩

end Bhive
